import Mathlib

/-!
Verification model of the pdb remote-control protocol core
(src/protocol.rs, src/types.rs, src/server.rs, src/client.rs).

The Rust types are embedded shallowly: machine integers become `Nat`/`Int`
with explicit range predicates where the width matters, `Vec` becomes
`List`, `HashMap<usize, Device>` becomes an association list with
overwrite-on-insert, and the serde_json payload serialization is modelled
at the level of the JSON value tree that serde's derived
`Serialize`/`Deserialize` implementations produce and consume
(externally tagged enums, structs as objects keyed by field name).
External collaborators (the Win32-backed `WindowController` enumerator and
the `Device` input/capture methods) are oracle parameters supplying their
fallible results, as §1 of the specification requires.
-/

namespace PDB

/-- JSON value tree, the data model of serde_json that `serde_json::to_vec`
prints and `serde_json::from_slice` parses.  All numbers appearing in this
protocol are integers. -/
inductive Json where
  | null : Json
  | bool : Bool → Json
  | num : Int → Json
  | str : String → Json
  | arr : List Json → Json
  | obj : List (String × Json) → Json

/-- Look a field up by name in an object's field list (first occurrence),
as serde's derived struct deserializer does. -/
def lookupField : List (String × Json) → String → Option Json
  | [], _ => none
  | (k, v) :: rest, name => if k = name then some v else lookupField rest name

/-- Field access on a JSON value: `none` unless it is an object holding the
field. -/
def Json.getField : Json → String → Option Json
  | .obj fields, name => lookupField fields name
  | _, _ => none

/-- Deserialize a `String` field. -/
def Json.asStr : Json → Option String
  | .str s => some s
  | _ => none

/-- Deserialize a `bool` field. -/
def Json.asBool : Json → Option Bool
  | .bool b => some b
  | _ => none

/-- Deserialize a `usize` field (carried as 64-bit unsigned on the wire):
a nonnegative number below `2^64`. -/
def Json.asU64 : Json → Option Nat
  | .num (.ofNat n) => if n < 2 ^ 64 then some n else none
  | _ => none

/-- Deserialize a `u32` field: a nonnegative number below `2^32`. -/
def Json.asU32 : Json → Option Nat
  | .num (.ofNat n) => if n < 2 ^ 32 then some n else none
  | _ => none

/-- Deserialize a `u8` vector element: a nonnegative number below `256`. -/
def Json.asU8 : Json → Option Nat
  | .num (.ofNat n) => if n < 256 then some n else none
  | _ => none

/-- Deserialize an `i32` field: a number in `[-2^31, 2^31)`. -/
def Json.asI32 : Json → Option Int
  | .num (.ofNat n) => if n < 2 ^ 31 then some (Int.ofNat n) else none
  | .num (.negSucc n) => if n < 2 ^ 31 then some (Int.negSucc n) else none
  | _ => none

/-- Deserialize a JSON array elementwise, failing if any element fails. -/
def decodeJsonList (f : Json → Option α) : List Json → Option (List α)
  | [] => some []
  | j :: rest =>
    match f j, decodeJsonList f rest with
    | some a, some as => some (a :: as)
    | _, _ => none

/-- Whether `n` fits in a signed 32-bit integer (Rust `i32`). -/
def i32wf (n : Int) : Bool := decide (-(2 : Int) ^ 31 ≤ n) && decide (n < (2 : Int) ^ 31)

/-- Whether `n` fits in an unsigned 64-bit integer (Rust `usize` on the wire). -/
def u64wf (n : Nat) : Bool := decide (n < 2 ^ 64)

/-- Whether `n` fits in an unsigned 32-bit integer (Rust `u32`). -/
def u32wf (n : Nat) : Bool := decide (n < 2 ^ 32)

/-- Whether `n` fits in an unsigned byte (Rust `u8`). -/
def u8wf (n : Nat) : Bool := decide (n < 256)

/-- Type `Rect` from src/types.rs: integer pixel rectangle, `i32` fields. -/
structure Rect where
  left : Int
  top : Int
  right : Int
  bottom : Int
  deriving DecidableEq

/-- All fields of the rectangle fit in `i32`. -/
def Rect.wf (r : Rect) : Bool :=
  i32wf r.left && i32wf r.top && i32wf r.right && i32wf r.bottom

/-- Type `WindowInfo` from src/types.rs: handle, title, class name, rectangle,
visibility. -/
structure WindowInfo where
  hwnd : Nat
  title : String
  class_name : String
  rect : Rect
  visible : Bool
  deriving DecidableEq

/-- The handle fits in `usize` (64-bit) and the rectangle in `i32`s. -/
def WindowInfo.wf (w : WindowInfo) : Bool := u64wf w.hwnd && w.rect.wf

/-- Type `Screenshot` from src/types.rs: `u32` width and height, raw RGBA bytes. -/
structure Screenshot where
  width : Nat
  height : Nat
  data : List Nat
  deriving DecidableEq

/-- Width and height fit in `u32`, every data element is a byte. -/
def Screenshot.wf (s : Screenshot) : Bool :=
  u32wf s.width && u32wf s.height && s.data.all u8wf

/-- Type `KeyCode` from src/types.rs.  serde's derived codec ignores the numeric
discriminants and carries the variant name, so only the names are modelled. -/
inductive KeyCode where
  | Num0 | Num1 | Num2 | Num3 | Num4 | Num5 | Num6 | Num7 | Num8 | Num9
  | A | B | C | D | E | F | G | H | I | J | K | L | M
  | N | O | P | Q | R | S | T | U | V | W | X | Y | Z
  | F1 | F2 | F3 | F4 | F5 | F6 | F7 | F8 | F9 | F10 | F11 | F12
  | Backspace | Tab | Enter | Shift | Ctrl | Alt | Pause | CapsLock
  | Escape | Space | PageUp | PageDown | End | Home
  | Left | Up | Right | Down | Insert | Delete
  | LWin | RWin
  deriving DecidableEq

/-- Type `Command` from src/protocol.rs: the closed set of client requests. -/
inductive Command where
  | ListWindows : Command
  | Connect : (title : String) → Command
  | ConnectByHwnd : (hwnd : Nat) → Command
  | Click : (hwnd : Nat) → (x y : Int) → Command
  | Swipe : (hwnd : Nat) → (x1 y1 x2 y2 : Int) → (duration_ms : Nat) → Command
  | Screenshot : (hwnd : Nat) → Command
  | InputText : (hwnd : Nat) → (text : String) → Command
  | KeyEvent : (hwnd : Nat) → (key : KeyCode) → Command
  | GetSize : (hwnd : Nat) → Command
  | Focus : (hwnd : Nat) → Command
  | Ping : Command
  | Disconnect : Command
  deriving DecidableEq

/-- Type `Response` from src/protocol.rs: the closed set of server replies. -/
inductive Response where
  | Ok : Response
  | Windows : List WindowInfo → Response
  | Window : WindowInfo → Response
  | Screenshot : Screenshot → Response
  | Size : (width height : Int) → Response
  | Error : String → Response
  | Pong : Response
  deriving DecidableEq

/-! ## Payload codec

serde's derived implementations on the repository's types, at the JSON
value level: structs are objects keyed by field name in declaration order,
enums are externally tagged (unit variants as bare strings, data-carrying
variants as single-entry objects). -/

/-- Variant name carried on the wire for a `KeyCode` (serde unit variant). -/
def keyCodeName : KeyCode → String
  | .Num0 => "Num0" | .Num1 => "Num1" | .Num2 => "Num2" | .Num3 => "Num3"
  | .Num4 => "Num4" | .Num5 => "Num5" | .Num6 => "Num6" | .Num7 => "Num7"
  | .Num8 => "Num8" | .Num9 => "Num9"
  | .A => "A" | .B => "B" | .C => "C" | .D => "D" | .E => "E" | .F => "F"
  | .G => "G" | .H => "H" | .I => "I" | .J => "J" | .K => "K" | .L => "L"
  | .M => "M" | .N => "N" | .O => "O" | .P => "P" | .Q => "Q" | .R => "R"
  | .S => "S" | .T => "T" | .U => "U" | .V => "V" | .W => "W" | .X => "X"
  | .Y => "Y" | .Z => "Z"
  | .F1 => "F1" | .F2 => "F2" | .F3 => "F3" | .F4 => "F4" | .F5 => "F5"
  | .F6 => "F6" | .F7 => "F7" | .F8 => "F8" | .F9 => "F9" | .F10 => "F10"
  | .F11 => "F11" | .F12 => "F12"
  | .Backspace => "Backspace" | .Tab => "Tab" | .Enter => "Enter"
  | .Shift => "Shift" | .Ctrl => "Ctrl" | .Alt => "Alt" | .Pause => "Pause"
  | .CapsLock => "CapsLock" | .Escape => "Escape" | .Space => "Space"
  | .PageUp => "PageUp" | .PageDown => "PageDown" | .End => "End"
  | .Home => "Home" | .Left => "Left" | .Up => "Up" | .Right => "Right"
  | .Down => "Down" | .Insert => "Insert" | .Delete => "Delete"
  | .LWin => "LWin" | .RWin => "RWin"

/-- Recover a `KeyCode` from its variant name. -/
def keyCodeOfName : String → Option KeyCode
  | "Num0" => some .Num0 | "Num1" => some .Num1 | "Num2" => some .Num2
  | "Num3" => some .Num3 | "Num4" => some .Num4 | "Num5" => some .Num5
  | "Num6" => some .Num6 | "Num7" => some .Num7 | "Num8" => some .Num8
  | "Num9" => some .Num9
  | "A" => some .A | "B" => some .B | "C" => some .C | "D" => some .D
  | "E" => some .E | "F" => some .F | "G" => some .G | "H" => some .H
  | "I" => some .I | "J" => some .J | "K" => some .K | "L" => some .L
  | "M" => some .M | "N" => some .N | "O" => some .O | "P" => some .P
  | "Q" => some .Q | "R" => some .R | "S" => some .S | "T" => some .T
  | "U" => some .U | "V" => some .V | "W" => some .W | "X" => some .X
  | "Y" => some .Y | "Z" => some .Z
  | "F1" => some .F1 | "F2" => some .F2 | "F3" => some .F3 | "F4" => some .F4
  | "F5" => some .F5 | "F6" => some .F6 | "F7" => some .F7 | "F8" => some .F8
  | "F9" => some .F9 | "F10" => some .F10 | "F11" => some .F11
  | "F12" => some .F12
  | "Backspace" => some .Backspace | "Tab" => some .Tab | "Enter" => some .Enter
  | "Shift" => some .Shift | "Ctrl" => some .Ctrl | "Alt" => some .Alt
  | "Pause" => some .Pause | "CapsLock" => some .CapsLock
  | "Escape" => some .Escape | "Space" => some .Space
  | "PageUp" => some .PageUp | "PageDown" => some .PageDown
  | "End" => some .End | "Home" => some .Home | "Left" => some .Left
  | "Up" => some .Up | "Right" => some .Right | "Down" => some .Down
  | "Insert" => some .Insert | "Delete" => some .Delete
  | "LWin" => some .LWin | "RWin" => some .RWin
  | _ => none

/-- Serialize a `Rect`. -/
def encodeRect (r : Rect) : Json :=
  .obj [("left", .num r.left), ("top", .num r.top),
        ("right", .num r.right), ("bottom", .num r.bottom)]

/-- Deserialize a `Rect` (fields looked up by name). -/
def decodeRect (j : Json) : Option Rect := do
  let l ← (← j.getField "left").asI32
  let t ← (← j.getField "top").asI32
  let r ← (← j.getField "right").asI32
  let b ← (← j.getField "bottom").asI32
  pure ⟨l, t, r, b⟩

/-- Serialize a `WindowInfo`. -/
def encodeWindowInfo (w : WindowInfo) : Json :=
  .obj [("hwnd", .num (Int.ofNat w.hwnd)), ("title", .str w.title),
        ("class_name", .str w.class_name), ("rect", encodeRect w.rect),
        ("visible", .bool w.visible)]

/-- Deserialize a `WindowInfo`. -/
def decodeWindowInfo (j : Json) : Option WindowInfo := do
  let h ← (← j.getField "hwnd").asU64
  let t ← (← j.getField "title").asStr
  let c ← (← j.getField "class_name").asStr
  let r ← decodeRect (← j.getField "rect")
  let v ← (← j.getField "visible").asBool
  pure ⟨h, t, c, r, v⟩

/-- Serialize a `Screenshot` (`Vec<u8>` as a JSON array of numbers, which
is serde_json's default for the derived codec). -/
def encodeScreenshot (s : Screenshot) : Json :=
  .obj [("width", .num (Int.ofNat s.width)), ("height", .num (Int.ofNat s.height)),
        ("data", .arr (s.data.map fun b => .num (Int.ofNat b)))]

/-- Deserialize a `Screenshot`. -/
def decodeScreenshot (j : Json) : Option Screenshot := do
  let w ← (← j.getField "width").asU32
  let h ← (← j.getField "height").asU32
  match (← j.getField "data") with
  | .arr elems => do
    let data ← decodeJsonList Json.asU8 elems
    pure ⟨w, h, data⟩
  | _ => none

/-- Serialize a `Command`, as serde's externally tagged derive does. -/
def encodeCommand : Command → Json
  | .ListWindows => .str "ListWindows"
  | .Connect title => .obj [("Connect", .obj [("title", .str title)])]
  | .ConnectByHwnd hwnd =>
    .obj [("ConnectByHwnd", .obj [("hwnd", .num (Int.ofNat hwnd))])]
  | .Click hwnd x y =>
    .obj [("Click", .obj [("hwnd", .num (Int.ofNat hwnd)),
                          ("x", .num x), ("y", .num y)])]
  | .Swipe hwnd x1 y1 x2 y2 d =>
    .obj [("Swipe", .obj [("hwnd", .num (Int.ofNat hwnd)),
                          ("x1", .num x1), ("y1", .num y1),
                          ("x2", .num x2), ("y2", .num y2),
                          ("duration_ms", .num (Int.ofNat d))])]
  | .Screenshot hwnd =>
    .obj [("Screenshot", .obj [("hwnd", .num (Int.ofNat hwnd))])]
  | .InputText hwnd text =>
    .obj [("InputText", .obj [("hwnd", .num (Int.ofNat hwnd)),
                              ("text", .str text)])]
  | .KeyEvent hwnd key =>
    .obj [("KeyEvent", .obj [("hwnd", .num (Int.ofNat hwnd)),
                             ("key", .str (keyCodeName key))])]
  | .GetSize hwnd => .obj [("GetSize", .obj [("hwnd", .num (Int.ofNat hwnd))])]
  | .Focus hwnd => .obj [("Focus", .obj [("hwnd", .num (Int.ofNat hwnd))])]
  | .Ping => .str "Ping"
  | .Disconnect => .str "Disconnect"

/-- Deserialize a `Command`: a bare string is a unit variant, a single-entry
object is a data-carrying variant keyed by its name. -/
def decodeCommand : Json → Option Command
  | .str "ListWindows" => some .ListWindows
  | .str "Ping" => some .Ping
  | .str "Disconnect" => some .Disconnect
  | .obj [(tag, content)] =>
    match tag with
    | "Connect" => do
      let t ← (← content.getField "title").asStr
      pure (.Connect t)
    | "ConnectByHwnd" => do
      let h ← (← content.getField "hwnd").asU64
      pure (.ConnectByHwnd h)
    | "Click" => do
      let h ← (← content.getField "hwnd").asU64
      let x ← (← content.getField "x").asI32
      let y ← (← content.getField "y").asI32
      pure (.Click h x y)
    | "Swipe" => do
      let h ← (← content.getField "hwnd").asU64
      let x1 ← (← content.getField "x1").asI32
      let y1 ← (← content.getField "y1").asI32
      let x2 ← (← content.getField "x2").asI32
      let y2 ← (← content.getField "y2").asI32
      let d ← (← content.getField "duration_ms").asU32
      pure (.Swipe h x1 y1 x2 y2 d)
    | "Screenshot" => do
      let h ← (← content.getField "hwnd").asU64
      pure (.Screenshot h)
    | "InputText" => do
      let h ← (← content.getField "hwnd").asU64
      let t ← (← content.getField "text").asStr
      pure (.InputText h t)
    | "KeyEvent" => do
      let h ← (← content.getField "hwnd").asU64
      let k ← keyCodeOfName (← (← content.getField "key").asStr)
      pure (.KeyEvent h k)
    | "GetSize" => do
      let h ← (← content.getField "hwnd").asU64
      pure (.GetSize h)
    | "Focus" => do
      let h ← (← content.getField "hwnd").asU64
      pure (.Focus h)
    | _ => none
  | _ => none

/-- Serialize a `Response`. -/
def encodeResponse : Response → Json
  | .Ok => .str "Ok"
  | .Windows ws => .obj [("Windows", .arr (ws.map encodeWindowInfo))]
  | .Window w => .obj [("Window", encodeWindowInfo w)]
  | .Screenshot s => .obj [("Screenshot", encodeScreenshot s)]
  | .Size w h => .obj [("Size", .obj [("width", .num w), ("height", .num h)])]
  | .Error msg => .obj [("Error", .str msg)]
  | .Pong => .str "Pong"

/-- Deserialize a `Response`. -/
def decodeResponse : Json → Option Response
  | .str "Ok" => some .Ok
  | .str "Pong" => some .Pong
  | .obj [(tag, content)] =>
    match tag with
    | "Windows" =>
      match content with
      | .arr elems => do
        let ws ← decodeJsonList decodeWindowInfo elems
        pure (.Windows ws)
      | _ => none
    | "Window" => do
      let w ← decodeWindowInfo content
      pure (.Window w)
    | "Screenshot" => do
      let s ← decodeScreenshot content
      pure (.Screenshot s)
    | "Size" => do
      let w ← (← content.getField "width").asI32
      let h ← (← content.getField "height").asI32
      pure (.Size w h)
    | "Error" => do
      let m ← content.asStr
      pure (.Error m)
    | _ => none
  | _ => none

/-- Every machine-width field of the command is in range for its Rust type
(`hwnd : usize` on a 64-bit host, coordinates `i32`, `duration_ms : u32`). -/
def Command.wf : Command → Bool
  | .ListWindows | .Ping | .Disconnect => true
  | .Connect _ => true
  | .ConnectByHwnd h => u64wf h
  | .Click h x y => u64wf h && i32wf x && i32wf y
  | .Swipe h x1 y1 x2 y2 d =>
    u64wf h && i32wf x1 && i32wf y1 && i32wf x2 && i32wf y2 && u32wf d
  | .Screenshot h => u64wf h
  | .InputText h _ => u64wf h
  | .KeyEvent h _ => u64wf h
  | .GetSize h => u64wf h
  | .Focus h => u64wf h

/-- Every machine-width field of the response is in range for its Rust type. -/
def Response.wf : Response → Bool
  | .Ok | .Pong | .Error _ => true
  | .Windows ws => ws.all WindowInfo.wf
  | .Window w => w.wf
  | .Screenshot s => s.wf
  | .Size w h => i32wf w && i32wf h

/-! ## Round-trip lemmas for the codec -/

theorem asU64_num_of_wf (n : Nat) (h : u64wf n = true) :
    Json.asU64 (.num (n : Int)) = some n := by
  simp only [u64wf, decide_eq_true_eq] at h
  show Json.asU64 (.num (Int.ofNat n)) = some n
  simp only [Json.asU64]
  split
  · rfl
  · omega

theorem asU32_num_of_wf (n : Nat) (h : u32wf n = true) :
    Json.asU32 (.num (n : Int)) = some n := by
  simp only [u32wf, decide_eq_true_eq] at h
  show Json.asU32 (.num (Int.ofNat n)) = some n
  simp only [Json.asU32]
  split
  · rfl
  · omega

theorem asU8_num_of_wf (n : Nat) (h : u8wf n = true) :
    Json.asU8 (.num (n : Int)) = some n := by
  simp only [u8wf, decide_eq_true_eq] at h
  show Json.asU8 (.num (Int.ofNat n)) = some n
  simp only [Json.asU8]
  split
  · rfl
  · omega

theorem asI32_num_of_wf (m : Int) (h : i32wf m = true) :
    Json.asI32 (.num m) = some m := by
  simp only [i32wf, Bool.and_eq_true, decide_eq_true_eq] at h
  obtain ⟨h1, h2⟩ := h
  cases m with
  | ofNat n =>
    simp only [Json.asI32]
    split
    · rfl
    · rename_i hc
      rw [Int.ofNat_eq_natCast] at h2
      norm_num at h2 hc ⊢
      omega
  | negSucc n =>
    simp only [Json.asI32]
    split
    · rfl
    · rename_i hc
      rw [Int.negSucc_eq] at h1
      norm_num at h1 hc ⊢
      omega

theorem keyCode_roundtrip (k : KeyCode) : keyCodeOfName (keyCodeName k) = some k := by
  cases k <;> rfl

theorem decodeRect_encodeRect (r : Rect) (h : r.wf = true) :
    decodeRect (encodeRect r) = some r := by
  simp only [Rect.wf, Bool.and_eq_true] at h
  obtain ⟨⟨⟨h1, h2⟩, h3⟩, h4⟩ := h
  simp [decodeRect, encodeRect, Json.getField, lookupField,
        asI32_num_of_wf _ h1, asI32_num_of_wf _ h2, asI32_num_of_wf _ h3,
        asI32_num_of_wf _ h4]

theorem decodeWindowInfo_encode (w : WindowInfo) (h : w.wf = true) :
    decodeWindowInfo (encodeWindowInfo w) = some w := by
  simp only [WindowInfo.wf, Bool.and_eq_true] at h
  simp [decodeWindowInfo, encodeWindowInfo, Json.getField, lookupField,
        asU64_num_of_wf _ h.1, decodeRect_encodeRect _ h.2, Json.asStr, Json.asBool]

theorem decodeJsonList_asU8 (l : List Nat) (h : ∀ b ∈ l, u8wf b = true) :
    decodeJsonList Json.asU8 (l.map fun b : Nat => Json.num (b : Int)) = some l := by
  induction l with
  | nil => rfl
  | cons b rest ih =>
    simp only [List.map_cons, decodeJsonList,
               asU8_num_of_wf b (h b (List.mem_cons_self b rest)),
               ih (fun x hx => h x (List.mem_cons_of_mem b hx))]

theorem decodeScreenshot_encode (s : Screenshot) (h : s.wf = true) :
    decodeScreenshot (encodeScreenshot s) = some s := by
  simp only [Screenshot.wf, Bool.and_eq_true, List.all_eq_true] at h
  obtain ⟨⟨h1, h2⟩, h3⟩ := h
  simp [decodeScreenshot, encodeScreenshot, Json.getField, lookupField,
        asU32_num_of_wf _ h1, asU32_num_of_wf _ h2,
        decodeJsonList_asU8 _ (fun b hb => h3 b hb)]

theorem decodeJsonList_windows (ws : List WindowInfo) (h : ∀ w ∈ ws, w.wf = true) :
    decodeJsonList decodeWindowInfo (ws.map encodeWindowInfo) = some ws := by
  induction ws with
  | nil => rfl
  | cons w rest ih =>
    simp only [List.map_cons, decodeJsonList,
               decodeWindowInfo_encode w (h w (List.mem_cons_self w rest)),
               ih (fun x hx => h x (List.mem_cons_of_mem w hx))]

theorem decodeCommand_encodeCommand (c : Command) (h : c.wf = true) :
    decodeCommand (encodeCommand c) = some c := by
  cases c with
  | ListWindows => rfl
  | Ping => rfl
  | Disconnect => rfl
  | Connect title => simp [encodeCommand, decodeCommand, Json.getField, lookupField, Json.asStr]
  | ConnectByHwnd hwnd =>
    simp only [Command.wf] at h
    simp [encodeCommand, decodeCommand, Json.getField, lookupField, asU64_num_of_wf _ h]
  | Click hwnd x y =>
    simp only [Command.wf, Bool.and_eq_true] at h
    obtain ⟨⟨h1, h2⟩, h3⟩ := h
    simp [encodeCommand, decodeCommand, Json.getField, lookupField,
          asU64_num_of_wf _ h1, asI32_num_of_wf _ h2, asI32_num_of_wf _ h3]
  | Swipe hwnd x1 y1 x2 y2 d =>
    simp only [Command.wf, Bool.and_eq_true] at h
    obtain ⟨⟨⟨⟨⟨h1, h2⟩, h3⟩, h4⟩, h5⟩, h6⟩ := h
    simp [encodeCommand, decodeCommand, Json.getField, lookupField,
          asU64_num_of_wf _ h1, asI32_num_of_wf _ h2, asI32_num_of_wf _ h3,
          asI32_num_of_wf _ h4, asI32_num_of_wf _ h5, asU32_num_of_wf _ h6]
  | Screenshot hwnd =>
    simp only [Command.wf] at h
    simp [encodeCommand, decodeCommand, Json.getField, lookupField, asU64_num_of_wf _ h]
  | InputText hwnd text =>
    simp only [Command.wf] at h
    simp [encodeCommand, decodeCommand, Json.getField, lookupField,
          asU64_num_of_wf _ h, Json.asStr]
  | KeyEvent hwnd key =>
    simp only [Command.wf] at h
    simp [encodeCommand, decodeCommand, Json.getField, lookupField,
          asU64_num_of_wf _ h, Json.asStr, keyCode_roundtrip]
  | GetSize hwnd =>
    simp only [Command.wf] at h
    simp [encodeCommand, decodeCommand, Json.getField, lookupField, asU64_num_of_wf _ h]
  | Focus hwnd =>
    simp only [Command.wf] at h
    simp [encodeCommand, decodeCommand, Json.getField, lookupField, asU64_num_of_wf _ h]

theorem decodeResponse_encodeResponse (r : Response) (h : r.wf = true) :
    decodeResponse (encodeResponse r) = some r := by
  cases r with
  | Ok => rfl
  | Pong => rfl
  | Error msg => simp [encodeResponse, decodeResponse, Json.asStr]
  | Windows ws =>
    simp only [Response.wf, List.all_eq_true] at h
    simp [encodeResponse, decodeResponse, decodeJsonList_windows ws h]
  | Window w =>
    simp only [Response.wf] at h
    simp [encodeResponse, decodeResponse, decodeWindowInfo_encode w h]
  | Screenshot s =>
    simp only [Response.wf] at h
    simp [encodeResponse, decodeResponse, decodeScreenshot_encode s h]
  | Size w h2 =>
    simp only [Response.wf, Bool.and_eq_true] at h
    simp [encodeResponse, decodeResponse, Json.getField, lookupField,
          asI32_num_of_wf _ h.1, asI32_num_of_wf _ h.2]

/-! ## Device registry and command dispatch (src/server.rs, src/device.rs) -/

/-- Type `Device` from src/device.rs: the raw window handle plus the
`WindowInfo` snapshot it was created from.  What its methods do when
invoked is collaborator behavior, supplied by a `Collab` oracle. -/
structure Device where
  hwnd : Nat
  info : WindowInfo
  deriving DecidableEq

/-- Constructor `Device::new(info)`: binds the device to `info`, taking the raw handle
from `info.hwnd`. -/
def Device.new (info : WindowInfo) : Device := ⟨info.hwnd, info⟩

/-- The server's shared `devices` map (`HashMap<usize, Device>`), modelled
as an association list whose `insert` overwrites in place. -/
abbrev Registry := List (Nat × Device)

/-- Operation `HashMap::insert`: overwrite the entry for the key if present,
otherwise append a fresh entry. -/
def registryInsert : Registry → Nat → Device → Registry
  | [], k, v => [(k, v)]
  | (k2, v2) :: rest, k, v =>
    if k2 = k then (k, v) :: rest else (k2, v2) :: registryInsert rest k v

/-- Operation `HashMap::get`: the value stored for the key, if any. -/
def registryGet : Registry → Nat → Option Device
  | [], _ => none
  | (k2, v2) :: rest, k => if k2 = k then some v2 else registryGet rest k

/-- Number of entries carrying the key. -/
def countKey (r : Registry) (k : Nat) : Nat :=
  (r.filter fun e => e.1 = k).length

/-- The association list has pairwise distinct keys (the `HashMap`
representation invariant). -/
def nodupKeys : Registry → Bool
  | [] => true
  | (k, _) :: rest => (registryGet rest k).isNone && nodupKeys rest

/-- Results the external collaborators return during one dispatch: the
`WindowController` enumerator calls and the `Device` method calls, each
fallible; on failure the server uses the error's display string. -/
structure Collab where
  list_windows : Except String (List WindowInfo)
  find_window : String → Except String WindowInfo
  get_window_by_hwnd : Nat → Except String WindowInfo
  dev_click : Device → Int → Int → Except String Unit
  dev_swipe : Device → Int → Int → Int → Int → Nat → Except String Unit
  dev_screenshot : Device → Except String Screenshot
  dev_input_text : Device → String → Except String Unit
  dev_key_event : Device → KeyCode → Except String Unit
  dev_get_size : Device → Except String (Int × Int)
  dev_focus : Device → Except String Unit

/-- One `Device` method invocation performed by the dispatcher. -/
inductive DeviceCall where
  | click (hwnd : Nat) (x y : Int)
  | swipe (hwnd : Nat) (x1 y1 x2 y2 : Int) (duration_ms : Nat)
  | screenshot (hwnd : Nat)
  | input_text (hwnd : Nat) (text : String)
  | key_event (hwnd : Nat) (key : KeyCode)
  | get_size (hwnd : Nat)
  | focus (hwnd : Nat)
  deriving DecidableEq

/-- Function `handle_command` from src/server.rs, instrumented: besides the
`Response` it returns the registry after the command and the list of
`Device` method invocations the dispatch performed. -/
def handle_command (o : Collab) (command : Command) (devices : Registry) :
    Response × Registry × List DeviceCall :=
  match command with
  | .Ping => (.Pong, devices, [])
  | .Disconnect => (.Ok, devices, [])
  | .ListWindows =>
    match o.list_windows with
    | .ok windows => (.Windows windows, devices, [])
    | .error e => (.Error e, devices, [])
  | .Connect title =>
    match o.find_window title with
    | .ok info => (.Window info, registryInsert devices info.hwnd (Device.new info), [])
    | .error e => (.Error e, devices, [])
  | .ConnectByHwnd hwnd =>
    match o.get_window_by_hwnd hwnd with
    | .ok info => (.Window info, registryInsert devices info.hwnd (Device.new info), [])
    | .error e => (.Error e, devices, [])
  | .Click hwnd x y =>
    match registryGet devices hwnd with
    | some device =>
      match o.dev_click device x y with
      | .ok _ => (.Ok, devices, [.click hwnd x y])
      | .error e => (.Error e, devices, [.click hwnd x y])
    | none => (.Error "Device not connected", devices, [])
  | .Swipe hwnd x1 y1 x2 y2 duration_ms =>
    match registryGet devices hwnd with
    | some device =>
      match o.dev_swipe device x1 y1 x2 y2 duration_ms with
      | .ok _ => (.Ok, devices, [.swipe hwnd x1 y1 x2 y2 duration_ms])
      | .error e => (.Error e, devices, [.swipe hwnd x1 y1 x2 y2 duration_ms])
    | none => (.Error "Device not connected", devices, [])
  | .Screenshot hwnd =>
    match registryGet devices hwnd with
    | some device =>
      match o.dev_screenshot device with
      | .ok s => (.Screenshot s, devices, [.screenshot hwnd])
      | .error e => (.Error e, devices, [.screenshot hwnd])
    | none => (.Error "Device not connected", devices, [])
  | .InputText hwnd text =>
    match registryGet devices hwnd with
    | some device =>
      match o.dev_input_text device text with
      | .ok _ => (.Ok, devices, [.input_text hwnd text])
      | .error e => (.Error e, devices, [.input_text hwnd text])
    | none => (.Error "Device not connected", devices, [])
  | .KeyEvent hwnd key =>
    match registryGet devices hwnd with
    | some device =>
      match o.dev_key_event device key with
      | .ok _ => (.Ok, devices, [.key_event hwnd key])
      | .error e => (.Error e, devices, [.key_event hwnd key])
    | none => (.Error "Device not connected", devices, [])
  | .GetSize hwnd =>
    match registryGet devices hwnd with
    | some device =>
      match o.dev_get_size device with
      | .ok wh => (.Size wh.1 wh.2, devices, [.get_size hwnd])
      | .error e => (.Error e, devices, [.get_size hwnd])
    | none => (.Error "Device not connected", devices, [])
  | .Focus hwnd =>
    match registryGet devices hwnd with
    | some device =>
      match o.dev_focus device with
      | .ok _ => (.Ok, devices, [.focus hwnd])
      | .error e => (.Error e, devices, [.focus hwnd])
    | none => (.Error "Device not connected", devices, [])

/-- The outward shape of a `Response`, forgetting its payload. -/
inductive ResponseKind where
  | ok | windows | window | screenshot | size | error | pong
  deriving DecidableEq

/-- The shape of a response. -/
def Response.kind : Response → ResponseKind
  | .Ok => .ok
  | .Windows _ => .windows
  | .Window _ => .window
  | .Screenshot _ => .screenshot
  | .Size _ _ => .size
  | .Error _ => .error
  | .Pong => .pong

/-- The fixed success mapping of the protocol contract:
`Connect`/`ConnectByHwnd`→`Window`, `ListWindows`→`Windows`,
`Screenshot`→`Screenshot`, `GetSize`→`Size`, `Ping`→`Pong`, and every
mutating device command (and `Disconnect`)→`Ok`. -/
def successKind : Command → ResponseKind
  | .Connect _ => .window
  | .ConnectByHwnd _ => .window
  | .ListWindows => .windows
  | .Screenshot _ => .screenshot
  | .GetSize _ => .size
  | .Ping => .pong
  | .Click _ _ _ => .ok
  | .Swipe _ _ _ _ _ _ => .ok
  | .InputText _ _ => .ok
  | .KeyEvent _ _ => .ok
  | .Focus _ => .ok
  | .Disconnect => .ok

/-- The window handle a per-window command operates on (`Click`, `Swipe`,
`Screenshot`, `InputText`, `KeyEvent`, `GetSize`, `Focus`); `none` for the
remaining commands. -/
def targetHwnd : Command → Option Nat
  | .Click h _ _ => some h
  | .Swipe h _ _ _ _ _ => some h
  | .Screenshot h => some h
  | .InputText h _ => some h
  | .KeyEvent h _ => some h
  | .GetSize h => some h
  | .Focus h => some h
  | _ => none

/-- A collaborator oracle in which every enumerator and device call fails
with the message `msg`. -/
def collabFail (msg : String) : Collab where
  list_windows := .error msg
  find_window := fun _ => .error msg
  get_window_by_hwnd := fun _ => .error msg
  dev_click := fun _ _ _ => .error msg
  dev_swipe := fun _ _ _ _ _ _ => .error msg
  dev_screenshot := fun _ => .error msg
  dev_input_text := fun _ _ => .error msg
  dev_key_event := fun _ _ => .error msg
  dev_get_size := fun _ => .error msg
  dev_focus := fun _ => .error msg

/-- A fixed window used to build concrete witnesses. -/
def okWindow : WindowInfo := ⟨1, "Notepad", "Notepad", ⟨0, 0, 800, 600⟩, true⟩

/-- A collaborator oracle in which every call succeeds. -/
def collabOk : Collab where
  list_windows := .ok [okWindow]
  find_window := fun _ => .ok okWindow
  get_window_by_hwnd := fun h => .ok ⟨h, "Notepad", "Notepad", ⟨0, 0, 800, 600⟩, true⟩
  dev_click := fun _ _ _ => .ok ()
  dev_swipe := fun _ _ _ _ _ _ => .ok ()
  dev_screenshot := fun _ => .ok ⟨1, 1, [0, 0, 0, 255]⟩
  dev_input_text := fun _ _ => .ok ()
  dev_key_event := fun _ _ => .ok ()
  dev_get_size := fun _ => .ok (800, 600)
  dev_focus := fun _ => .ok ()

/-! ## Lock extent of one dispatch

In src/server.rs every per-window arm binds the mutex guard
(`let devices = devices.lock().await;`) before the lookup and drops it at
the end of the arm — after the `Device` method call returns — while the
connect arms hold a temporary guard only across `insert`.  The event list
below records this program order. -/

/-- Lock, registry-map and device events of one dispatch, in program
order. -/
inductive Event where
  | lockAcquire
  | lockRelease
  | mapGet (hwnd : Nat)
  | mapInsert (hwnd : Nat)
  | deviceCall (call : DeviceCall)
  deriving DecidableEq

/-- The event trace of `handle_command`, read off the source arm by arm. -/
def handleEvents (o : Collab) (command : Command) (devices : Registry) :
    List Event :=
  match command with
  | .Ping => []
  | .Disconnect => []
  | .ListWindows => []
  | .Connect title =>
    match o.find_window title with
    | .ok info => [.lockAcquire, .mapInsert info.hwnd, .lockRelease]
    | .error _ => []
  | .ConnectByHwnd hwnd =>
    match o.get_window_by_hwnd hwnd with
    | .ok info => [.lockAcquire, .mapInsert info.hwnd, .lockRelease]
    | .error _ => []
  | .Click hwnd x y =>
    match registryGet devices hwnd with
    | some _ => [.lockAcquire, .mapGet hwnd, .deviceCall (.click hwnd x y), .lockRelease]
    | none => [.lockAcquire, .mapGet hwnd, .lockRelease]
  | .Swipe hwnd x1 y1 x2 y2 d =>
    match registryGet devices hwnd with
    | some _ => [.lockAcquire, .mapGet hwnd, .deviceCall (.swipe hwnd x1 y1 x2 y2 d), .lockRelease]
    | none => [.lockAcquire, .mapGet hwnd, .lockRelease]
  | .Screenshot hwnd =>
    match registryGet devices hwnd with
    | some _ => [.lockAcquire, .mapGet hwnd, .deviceCall (.screenshot hwnd), .lockRelease]
    | none => [.lockAcquire, .mapGet hwnd, .lockRelease]
  | .InputText hwnd text =>
    match registryGet devices hwnd with
    | some _ => [.lockAcquire, .mapGet hwnd, .deviceCall (.input_text hwnd text), .lockRelease]
    | none => [.lockAcquire, .mapGet hwnd, .lockRelease]
  | .KeyEvent hwnd key =>
    match registryGet devices hwnd with
    | some _ => [.lockAcquire, .mapGet hwnd, .deviceCall (.key_event hwnd key), .lockRelease]
    | none => [.lockAcquire, .mapGet hwnd, .lockRelease]
  | .GetSize hwnd =>
    match registryGet devices hwnd with
    | some _ => [.lockAcquire, .mapGet hwnd, .deviceCall (.get_size hwnd), .lockRelease]
    | none => [.lockAcquire, .mapGet hwnd, .lockRelease]
  | .Focus hwnd =>
    match registryGet devices hwnd with
    | some _ => [.lockAcquire, .mapGet hwnd, .deviceCall (.focus hwnd), .lockRelease]
    | none => [.lockAcquire, .mapGet hwnd, .lockRelease]

/-- Every device invocation in the trace happens while the lock is held
(positive depth), starting from depth `d`. -/
def deviceCallsLocked : List Event → Nat → Bool
  | [], _ => true
  | .lockAcquire :: rest, d => deviceCallsLocked rest (d + 1)
  | .lockRelease :: rest, d => deviceCallsLocked rest (d - 1)
  | .deviceCall _ :: rest, d => decide (0 < d) && deviceCallsLocked rest d
  | _ :: rest, d => deviceCallsLocked rest d

/-- Every device invocation in the trace happens with the lock free
(depth zero) — the spec's reading that the critical section covers only
the map operation. -/
def deviceCallsUnlocked : List Event → Nat → Bool
  | [], _ => true
  | .lockAcquire :: rest, d => deviceCallsUnlocked rest (d + 1)
  | .lockRelease :: rest, d => deviceCallsUnlocked rest (d - 1)
  | .deviceCall _ :: rest, d => decide (d = 0) && deviceCallsUnlocked rest d
  | _ :: rest, d => deviceCallsUnlocked rest d

/-- The device calls recorded in an event trace, in order. -/
def eventCalls : List Event → List DeviceCall :=
  List.filterMap fun e =>
    match e with
    | .deviceCall c => some c
    | _ => none

/-- Coherence of the two views of one dispatch: the device calls in the
event trace are exactly the calls `handle_command` performs. -/
theorem handleEvents_calls_eq (o : Collab) (c : Command) (reg : Registry) :
    eventCalls (handleEvents o c reg) = (handle_command o c reg).2.2 := by
  cases c <;>
    simp only [handleEvents, handle_command] <;>
    (try split) <;> (try split) <;> rfl

/-! ## Registry lemmas -/

theorem registryGet_insert (r : Registry) (k : Nat) (v : Device) (k2 : Nat) :
    registryGet (registryInsert r k v) k2 =
      if k = k2 then some v else registryGet r k2 := by
  induction r with
  | nil => simp [registryInsert, registryGet]
  | cons e rest ih =>
    obtain ⟨ka, va⟩ := e
    simp only [registryInsert]
    by_cases hak : ka = k
    · subst hak
      simp only [if_pos rfl, registryGet]
      by_cases hk2 : ka = k2
      · subst hk2; simp
      · simp [hk2]
    · simp only [if_neg hak, registryGet]
      by_cases hk2 : ka = k2
      · subst hk2
        have : ¬ (k = ka) := fun h => hak h.symm
        simp [this]
      · simp [hk2, ih]

theorem registryGet_none_countKey (r : Registry) (k : Nat)
    (h : registryGet r k = none) : countKey r k = 0 := by
  induction r with
  | nil => rfl
  | cons e rest ih =>
    obtain ⟨ka, va⟩ := e
    simp only [registryGet] at h
    by_cases hak : ka = k
    · rw [if_pos hak] at h
      exact absurd h (by simp)
    · rw [if_neg hak] at h
      simp only [countKey, List.filter_cons] at ih ⊢
      simp only [decide_eq_true_eq]
      rw [if_neg (by simpa using hak)]
      exact ih h

theorem countKey_insert_of_nodup (r : Registry) (k : Nat) (v : Device)
    (h : nodupKeys r = true) : countKey (registryInsert r k v) k = 1 := by
  induction r with
  | nil => simp [registryInsert, countKey, List.filter]
  | cons e rest ih =>
    obtain ⟨ka, va⟩ := e
    simp only [nodupKeys, Bool.and_eq_true, Option.isNone_iff_eq_none] at h
    simp only [registryInsert]
    by_cases hak : ka = k
    · subst hak
      simp only [if_pos rfl]
      have h0 : countKey rest ka = 0 := registryGet_none_countKey rest ka h.1
      simp only [countKey, List.filter_cons] at h0 ⊢
      simp [h0]
    · simp only [if_neg hak]
      have h1 := ih h.2
      simp only [countKey, List.filter_cons] at h1 ⊢
      simp only [decide_eq_true_eq]
      rw [if_neg (by simpa using hak)]
      exact h1

theorem nodupKeys_insert (r : Registry) (k : Nat) (v : Device)
    (h : nodupKeys r = true) : nodupKeys (registryInsert r k v) = true := by
  induction r with
  | nil => simp [registryInsert, nodupKeys, registryGet]
  | cons e rest ih =>
    obtain ⟨ka, va⟩ := e
    simp only [nodupKeys, Bool.and_eq_true, Option.isNone_iff_eq_none] at h
    simp only [registryInsert]
    by_cases hak : ka = k
    · subst hak
      simp only [if_pos rfl]
      simp [nodupKeys, h.1, h.2]
    · simp only [if_neg hak]
      simp only [nodupKeys, Bool.and_eq_true, Option.isNone_iff_eq_none]
      refine ⟨?_, ih h.2⟩
      rw [registryGet_insert]
      have : ¬ (k = ka) := fun hh => hak hh.symm
      simp [this, h.1]

/-! ## Command traces (reachable registry states) -/

/-- Run a sequence of dispatches, each step with its own collaborator
outcomes, threading the registry through. -/
def runCommands : List (Collab × Command) → Registry → Registry
  | [], reg => reg
  | (o, c) :: rest, reg => runCommands rest (handle_command o c reg).2.1

/-- One dispatch step successfully connects (registers) handle `h`:
it is a `Connect`/`ConnectByHwnd` whose enumerator lookup succeeds with a
window whose handle is `h`. -/
def stepRegisters (o : Collab) (c : Command) (h : Nat) : Bool :=
  match c with
  | .Connect title =>
    match o.find_window title with
    | .ok info => decide (info.hwnd = h)
    | .error _ => false
  | .ConnectByHwnd hwnd =>
    match o.get_window_by_hwnd hwnd with
    | .ok info => decide (info.hwnd = h)
    | .error _ => false
  | _ => false

/-- Some step of the trace successfully connects handle `h`. -/
def registersHandle : List (Collab × Command) → Nat → Bool
  | [], _ => false
  | (o, c) :: rest, h => stepRegisters o c h || registersHandle rest h

/-- How one dispatch changes presence of handle `h`: present afterwards
iff the step registered `h` or it was present before. -/
theorem handle_command_registry_step (o : Collab) (c : Command)
    (reg : Registry) (h : Nat) :
    (registryGet (handle_command o c reg).2.1 h).isSome =
      (stepRegisters o c h || (registryGet reg h).isSome) := by
  cases c with
  | Connect title =>
    simp only [handle_command, stepRegisters]
    cases hf : o.find_window title with
    | ok info =>
      simp only [registryGet_insert]
      by_cases hh : info.hwnd = h
      · simp [hh]
      · simp [hh]
    | error e => simp
  | ConnectByHwnd hwnd =>
    simp only [handle_command, stepRegisters]
    cases hf : o.get_window_by_hwnd hwnd with
    | ok info =>
      simp only [registryGet_insert]
      by_cases hh : info.hwnd = h
      · simp [hh]
      · simp [hh]
    | error e => simp
  | ListWindows =>
    simp only [handle_command, stepRegisters]
    cases o.list_windows <;> simp
  | Ping => simp [handle_command, stepRegisters]
  | Disconnect => simp [handle_command, stepRegisters]
  | Click hwnd x y =>
    simp only [handle_command, stepRegisters]
    split <;> (try split) <;> simp
  | Swipe hwnd x1 y1 x2 y2 d =>
    simp only [handle_command, stepRegisters]
    split <;> (try split) <;> simp
  | Screenshot hwnd =>
    simp only [handle_command, stepRegisters]
    split <;> (try split) <;> simp
  | InputText hwnd text =>
    simp only [handle_command, stepRegisters]
    split <;> (try split) <;> simp
  | KeyEvent hwnd key =>
    simp only [handle_command, stepRegisters]
    split <;> (try split) <;> simp
  | GetSize hwnd =>
    simp only [handle_command, stepRegisters]
    split <;> (try split) <;> simp
  | Focus hwnd =>
    simp only [handle_command, stepRegisters]
    split <;> (try split) <;> simp

/-- Presence of a handle after a whole trace, over any starting registry. -/
theorem runCommands_registry (tr : List (Collab × Command)) (reg : Registry)
    (h : Nat) :
    (registryGet (runCommands tr reg) h).isSome =
      (registersHandle tr h || (registryGet reg h).isSome) := by
  induction tr generalizing reg with
  | nil => simp [runCommands, registersHandle]
  | cons step rest ih =>
    obtain ⟨o, c⟩ := step
    simp only [runCommands, registersHandle, ih, handle_command_registry_step]
    cases stepRegisters o c h <;> simp

/-! ## Wire framing and the connection session (src/server.rs
`handle_connection`)

The byte stream a peer sends before closing its write side is a finite
list of bytes.  `read_exact(n)` succeeds when at least `n` bytes remain
and fails with `UnexpectedEof` otherwise — tokio reports `UnexpectedEof`
both for zero bytes and for a partial read cut off by end-of-stream.
The payload codec between bytes and `Command`/`Response` values
(`serde_json::to_vec`/`from_slice`) lives in the external serde_json
crate, so the session model takes it as an oracle pair `dec`/`enc`. -/

/-- Constant `PROTOCOL_VERSION` from src/protocol.rs. -/
def PROTOCOL_VERSION : Nat := 1

/-- Type `MessageHeader` from src/protocol.rs. -/
structure MessageHeader where
  version : Nat
  length : Nat
  deriving DecidableEq

/-- Constructor `MessageHeader::new`: stamps the current protocol version. -/
def MessageHeader.new (length : Nat) : MessageHeader :=
  ⟨PROTOCOL_VERSION, length⟩

/-- Value of `u32::from_le_bytes` on a 4-byte list. -/
def leU32 : List Nat → Nat
  | [b0, b1, b2, b3] => b0 % 256 + b1 % 256 * 256 + b2 % 256 * 65536 + b3 % 256 * 16777216
  | _ => 0

/-- Bytes of `u32::to_le_bytes` (`n as u32` truncation is inherent: only the low
32 bits reach the wire). -/
def leBytes (n : Nat) : List Nat :=
  [n % 256, n / 256 % 256, n / 65536 % 256, n / 16777216 % 256]

/-- The 8 header bytes of a frame: version then length, both
little-endian 32-bit. -/
def headerBytes (version length : Nat) : List Nat :=
  leBytes version ++ leBytes length

/-- A whole frame as written by the core: header then payload. -/
def mkFrame (version : Nat) (payload : List Nat) : List Nat :=
  headerBytes version payload.length ++ payload

/-- Oracles one session runs against: the payload codec (external
serde_json), per-iteration collaborator outcomes, and per-iteration
write success. -/
structure SessionEnv where
  dec : List Nat → Option Command
  enc : Response → List Nat
  collab : Nat → Collab
  writeOk : Nat → Bool

/-- How `handle_connection` ends once the peer's byte stream is
exhausted. -/
inductive SessionExit where
  | clean          -- header read hit end-of-stream: `return Ok(())`
  | bodyShortRead  -- `read_exact` on the body failed: `Err` propagated
  | decodeFailure  -- `serde_json::from_slice` failed: `Err` propagated
  | writeFailure   -- writing the response failed: `Err` propagated
  deriving DecidableEq

/-- The session loop of `handle_connection`, iteration index `i`, over the
remaining input bytes `s` and the shared registry: returns how the session
ends, the final registry, and the frames written back, in order. -/
def sessionRun (env : SessionEnv) (i : Nat) (s : List Nat) (reg : Registry) :
    SessionExit × Registry × List (List Nat) :=
  if _h8 : s.length < 8 then
    (.clean, reg, [])
  else
    let length := leU32 ((s.drop 4).take 4)
    let rest := s.drop 8
    if rest.length < length then
      (.bodyShortRead, reg, [])
    else
      match env.dec (rest.take length) with
      | none => (.decodeFailure, reg, [])
      | some command =>
        let out := handle_command (env.collab i) command reg
        let frame := mkFrame PROTOCOL_VERSION (env.enc out.1)
        if env.writeOk i then
          let next := sessionRun env (i + 1) (rest.drop length) out.2.1
          (next.1, next.2.1, frame :: next.2.2)
        else
          (.writeFailure, out.2.1, [])
termination_by s.length
decreasing_by
  simp only [List.length_drop]
  omega

/-- The size of the body buffer `handle_connection` allocates
(`vec![0u8; header.length as usize]`) once a full 8-byte header has been
read: exactly the length the header claims, with no upper bound applied. -/
def bodyAllocSize (s : List Nat) : Option Nat :=
  if s.length < 8 then none else some (leU32 ((s.drop 4).take 4))

/-! ## Client request correlator (src/client.rs `Client::send_command`)

`send_command` takes the connection's async mutex
(`let mut stream = self.stream.lock().await;`) and, still holding it,
writes the request frame, reads the response frame, and returns; the
guard drops on return.  `n` concurrent callers sharing one client are
modelled as tasks interleaved by an arbitrary scheduler; the wire is a
request queue and a response queue, and the server consumes requests in
order, answering with an abstract `serve` function. -/

/-- Where one caller task is inside `send_command`. -/
inductive TaskPc where
  | start
  | locked
  | written
  | gotResp (r : Response)
  | done (r : Response)
  deriving DecidableEq

/-- The task is inside the mutex-guarded region. -/
def TaskPc.inCS : TaskPc → Bool
  | .locked => true
  | .written => true
  | .gotResp _ => true
  | _ => false

/-- Global state of `n` caller tasks sharing one client connection. -/
structure CorrState (n : Nat) where
  pc : Fin n → TaskPc
  lock : Option (Fin n)
  reqQ : List Command
  respQ : List Response
  log : List (Fin n)
  reads : List (Fin n)

/-- All tasks before their first call; wire empty; lock free. -/
def corrInit (n : Nat) : CorrState n :=
  ⟨fun _ => .start, none, [], [], [], []⟩

/-- Interleaving semantics: any enabled task (or the server) may move.
`cmd k` is the command task `k` sends; `serve` is the server's
request-to-response function. -/
inductive CorrStep (cmd : Fin n → Command) (serve : Command → Response) :
    CorrState n → CorrState n → Prop where
  | acquire (k : Fin n) (s : CorrState n) :
      s.pc k = .start → s.lock = none →
      CorrStep cmd serve s
        { s with pc := Function.update s.pc k .locked, lock := some k }
  | write (k : Fin n) (s : CorrState n) :
      s.pc k = .locked → s.lock = some k →
      CorrStep cmd serve s
        { s with pc := Function.update s.pc k .written,
                 reqQ := s.reqQ ++ [cmd k], log := s.log ++ [k] }
  | respond (c : Command) (rest : List Command) (s : CorrState n) :
      s.reqQ = c :: rest →
      CorrStep cmd serve s
        { s with reqQ := rest, respQ := s.respQ ++ [serve c] }
  | read (k : Fin n) (r : Response) (rest : List Response) (s : CorrState n) :
      s.pc k = .written → s.lock = some k → s.respQ = r :: rest →
      CorrStep cmd serve s
        { s with pc := Function.update s.pc k (.gotResp r), respQ := rest,
                 reads := s.reads ++ [k] }
  | release (k : Fin n) (r : Response) (s : CorrState n) :
      s.pc k = .gotResp r → s.lock = some k →
      CorrStep cmd serve s
        { s with pc := Function.update s.pc k (.done r), lock := none }

/-- States reachable from the initial state under any interleaving. -/
def CorrReachable (cmd : Fin n → Command) (serve : Command → Response)
    (s : CorrState n) : Prop :=
  Relation.ReflTransGen (CorrStep cmd serve) (corrInit n) s

/-- The inductive invariant of the correlator: who may be inside the
critical section, what the wire can hold, and how `reads` relates to
`log`. -/
def corrInv (cmd : Fin n → Command) (serve : Command → Response)
    (s : CorrState n) : Prop :=
  (∀ k r, s.pc k = .done r → r = serve (cmd k)) ∧
  (∀ k r, s.pc k = .gotResp r → s.lock = some k ∧ r = serve (cmd k)) ∧
  (∀ k, s.pc k = .locked → s.lock = some k) ∧
  (∀ k, s.pc k = .written → s.lock = some k) ∧
  (match s.lock with
   | none => s.reqQ = [] ∧ s.respQ = [] ∧ s.reads = s.log
   | some k =>
     (s.pc k = .locked ∧ s.reqQ = [] ∧ s.respQ = [] ∧ s.reads = s.log) ∨
     (s.pc k = .written ∧ s.log = s.reads ++ [k] ∧
       ((s.reqQ = [cmd k] ∧ s.respQ = []) ∨
        (s.reqQ = [] ∧ s.respQ = [serve (cmd k)]))) ∨
     (∃ r, s.pc k = .gotResp r ∧ s.reqQ = [] ∧ s.respQ = [] ∧
        s.reads = s.log))

theorem corrInv_init (cmd : Fin n → Command) (serve : Command → Response) :
    corrInv cmd serve (corrInit n) := by
  refine ⟨?_, ?_, ?_, ?_, ?_⟩ <;> simp [corrInit]

theorem corrInv_step (cmd : Fin n → Command) (serve : Command → Response)
    (s s2 : CorrState n) (hs : corrInv cmd serve s)
    (hstep : CorrStep cmd serve s s2) : corrInv cmd serve s2 := by
  obtain ⟨hdone, hgot, hlocked, hwritten, hlock⟩ := hs
  cases hstep with
  | acquire k s hpc hl =>
    dsimp only [corrInv]
    rw [hl] at hlock
    obtain ⟨hq, hr, hlg⟩ := hlock
    refine ⟨?_, ?_, ?_, ?_, ?_⟩
    · intro j r hj
      by_cases hjk : j = k
      · subst hjk; simp [Function.update] at hj
      · rw [Function.update_noteq hjk] at hj
        exact hdone j r hj
    · intro j r hj
      by_cases hjk : j = k
      · subst hjk; simp [Function.update] at hj
      · rw [Function.update_noteq hjk] at hj
        have := (hgot j r hj).1
        rw [hl] at this
        cases this
    · intro j hj
      by_cases hjk : j = k
      · subst hjk; rfl
      · rw [Function.update_noteq hjk] at hj
        have := hlocked j hj
        rw [hl] at this
        cases this
    · intro j hj
      by_cases hjk : j = k
      · subst hjk; simp [Function.update] at hj
      · rw [Function.update_noteq hjk] at hj
        have := hwritten j hj
        rw [hl] at this
        cases this
    · exact Or.inl ⟨by simp [Function.update], hq, hr, hlg⟩
  | write k s hpc hl =>
    dsimp only [corrInv]
    rw [hl] at hlock
    rcases hlock with ⟨_, hq, hr, hlg⟩ | ⟨hpk, _, _⟩ | ⟨r2, hpk, _, _, _⟩
    · refine ⟨?_, ?_, ?_, ?_, ?_⟩
      · intro j r hj
        by_cases hjk : j = k
        · subst hjk; simp [Function.update] at hj
        · rw [Function.update_noteq hjk] at hj
          exact hdone j r hj
      · intro j r hj
        by_cases hjk : j = k
        · subst hjk; simp [Function.update] at hj
        · rw [Function.update_noteq hjk] at hj
          exact ⟨(hgot j r hj).1, (hgot j r hj).2⟩
      · intro j hj
        by_cases hjk : j = k
        · subst hjk; simp [Function.update] at hj
        · rw [Function.update_noteq hjk] at hj
          exact hlocked j hj
      · intro j hj
        by_cases hjk : j = k
        · subst hjk; exact hl
        · rw [Function.update_noteq hjk] at hj
          exact hwritten j hj
      · rw [hl]
        refine Or.inr (Or.inl ⟨by simp [Function.update], ?_, Or.inl ⟨?_, hr⟩⟩)
        · rw [hlg]
        · rw [hq]; rfl
    · rw [hpc] at hpk; cases hpk
    · rw [hpc] at hpk; cases hpk
  | respond c rest s hq =>
    dsimp only [corrInv]
    refine ⟨hdone, ?_, hlocked, hwritten, ?_⟩
    · intro j r hj
      exact hgot j r hj
    · cases hcase : s.lock with
      | none =>
        rw [hcase] at hlock
        rw [hlock.1] at hq; cases hq
      | some k =>
        rw [hcase] at hlock
        rcases hlock with ⟨_, hq0, _, _⟩ | ⟨hpk, hlg, hw⟩ | ⟨r2, _, hq0, _, _⟩
        · rw [hq0] at hq; cases hq
        · rcases hw with ⟨hq1, hr1⟩ | ⟨hq1, _⟩
          · rw [hq1] at hq
            injection hq with hc hrest
            refine Or.inr (Or.inl ⟨hpk, hlg, Or.inr ⟨hrest.symm, ?_⟩⟩)
            rw [hr1, hc]
            simp
          · rw [hq1] at hq; cases hq
        · rw [hq0] at hq; cases hq
  | read k r rest s hpc hl hr =>
    dsimp only [corrInv]
    rw [hl] at hlock
    rcases hlock with ⟨hpk, _, hr0, _⟩ | ⟨hpk, hlg, hw⟩ | ⟨r2, hpk, _, hr0, _⟩
    · rw [hr0] at hr; cases hr
    · rcases hw with ⟨_, hr1⟩ | ⟨hq1, hr1⟩
      · rw [hr1] at hr; cases hr
      refine ⟨?_, ?_, ?_, ?_, ?_⟩
      · intro j rr hj
        by_cases hjk : j = k
        · subst hjk; simp [Function.update] at hj
        · rw [Function.update_noteq hjk] at hj
          exact hdone j rr hj
      · intro j rr hj
        by_cases hjk : j = k
        · subst hjk
          rw [Function.update_same] at hj
          injection hj with hrr
          refine ⟨hl, ?_⟩
          rw [hr1] at hr
          injection hr with hr2 hr3
          rw [← hrr, ← hr2]
        · rw [Function.update_noteq hjk] at hj
          exact ⟨(hgot j rr hj).1, (hgot j rr hj).2⟩
      · intro j hj
        by_cases hjk : j = k
        · subst hjk; simp [Function.update] at hj
        · rw [Function.update_noteq hjk] at hj
          exact hlocked j hj
      · intro j hj
        by_cases hjk : j = k
        · subst hjk; simp [Function.update] at hj
        · rw [Function.update_noteq hjk] at hj
          exact hwritten j hj
      · rw [hl]
        refine Or.inr (Or.inr ⟨r, by simp [Function.update], hq1, ?_, ?_⟩)
        · rw [hr1] at hr
          injection hr with _ hr3
          exact hr3.symm
        · rw [hlg]
    · rw [hpc] at hpk; cases hpk
  | release k r s hpc hl =>
    dsimp only [corrInv]
    rw [hl] at hlock
    rcases hlock with ⟨hpk, _, _, _⟩ | ⟨hpk, _, _⟩ | ⟨r2, hpk, hq0, hr0, hlg⟩
    · rw [hpc] at hpk; cases hpk
    · rw [hpc] at hpk; cases hpk
    · refine ⟨?_, ?_, ?_, ?_, ?_⟩
      · intro j rr hj
        by_cases hjk : j = k
        · subst hjk
          rw [Function.update_same] at hj
          injection hj with hrr
          exact hrr ▸ (hgot j r hpc).2
        · rw [Function.update_noteq hjk] at hj
          exact hdone j rr hj
      · intro j rr hj
        by_cases hjk : j = k
        · subst hjk; simp [Function.update] at hj
        · rw [Function.update_noteq hjk] at hj
          have := (hgot j rr hj).1
          rw [hl] at this
          injection this with hjk2
          exact absurd hjk2.symm hjk
      · intro j hj
        by_cases hjk : j = k
        · subst hjk; simp [Function.update] at hj
        · rw [Function.update_noteq hjk] at hj
          have := hlocked j hj
          rw [hl] at this
          injection this with hjk2
          exact absurd hjk2.symm hjk
      · intro j hj
        by_cases hjk : j = k
        · subst hjk; simp [Function.update] at hj
        · rw [Function.update_noteq hjk] at hj
          have := hwritten j hj
          rw [hl] at this
          injection this with hjk2
          exact absurd hjk2.symm hjk
      · exact ⟨hq0, hr0, hlg⟩

theorem corrInv_reachable (cmd : Fin n → Command) (serve : Command → Response)
    (s : CorrState n) (h : CorrReachable cmd serve s) :
    corrInv cmd serve s := by
  induction h with
  | refl => exact corrInv_init cmd serve
  | tail _ hstep ih => exact corrInv_step cmd serve _ _ ih hstep

/-! ## Helper facts shared by the claims -/

/-- The window a `Connect`/`ConnectByHwnd` command resolves, when the
enumerator lookup succeeds; `none` for every other command and for
failed lookups. -/
def connectedInfo (o : Collab) : Command → Option WindowInfo
  | .Connect title =>
    match o.find_window title with
    | .ok info => some info
    | .error _ => none
  | .ConnectByHwnd hwnd =>
    match o.get_window_by_hwnd hwnd with
    | .ok info => some info
    | .error _ => none
  | _ => none

/-- A successful connect stores `Device::new(info)` under `info.hwnd`. -/
theorem handle_command_connect_registry (o : Collab) (c : Command)
    (i : WindowInfo) (reg : Registry) (h : connectedInfo o c = some i) :
    (handle_command o c reg).2.1 = registryInsert reg i.hwnd (Device.new i) := by
  cases c <;> simp only [connectedInfo] at h <;> try exact absurd h (by simp)
  case Connect title =>
    cases hf : o.find_window title with
    | ok info =>
      rw [hf] at h
      injection h with hi
      subst hi
      simp [handle_command, hf]
    | error e => rw [hf] at h; cases h
  case ConnectByHwnd hwnd =>
    cases hf : o.get_window_by_hwnd hwnd with
    | ok info =>
      rw [hf] at h
      injection h with hi
      subst hi
      simp [handle_command, hf]
    | error e => rw [hf] at h; cases h

/-- A registry holding exactly one device, used in concrete witnesses. -/
def reg1dev : Registry := [(1, Device.new okWindow)]

/-! ## Claims -/

/-- C1: decoding the serialized payload produced by encoding any `Command`
or any `Response` yields the same value back, with every field carried
exactly, provided each machine-width field is in range for its Rust type
(handles `usize` carried as unsigned 64-bit, coordinates `i32`,
`duration_ms`/`width`/`height` `u32`, screenshot bytes `u8`; strings are
UTF-8 by construction). -/
theorem roundtrip_command_response :
    (∀ c : Command, c.wf = true → decodeCommand (encodeCommand c) = some c) ∧
    (∀ r : Response, r.wf = true → decodeResponse (encodeResponse r) = some r) :=
  ⟨fun c h => decodeCommand_encodeCommand c h,
   fun r h => decodeResponse_encodeResponse r h⟩

/-- Witness for C1 on a concrete command and a concrete response. -/
theorem roundtrip_command_response_witness :
    decodeCommand (encodeCommand (.Swipe 3 (-1) 2 (-3) 4 500)) =
      some (.Swipe 3 (-1) 2 (-3) 4 500) ∧
    decodeResponse (encodeResponse (.Window okWindow)) =
      some (.Window okWindow) :=
  ⟨roundtrip_command_response.1 _ (by decide),
   roundtrip_command_response.2 _ (by decide)⟩

/-- C2: `handle_command` is a total function (the embedding is a Lean
function defined on every `Command` and every collaborator outcome, so
dispatch never raises); its response is either an `Error` or has exactly
the shape the fixed success mapping assigns to the command; and when
every collaborator call fails, every command other than `Ping` and
`Disconnect` yields an `Error` response. -/
theorem handle_command_shape :
    (∀ (o : Collab) (c : Command) (reg : Registry),
      ((handle_command o c reg).1).kind = .error ∨
      ((handle_command o c reg).1).kind = successKind c) ∧
    (∀ (msg : String) (c : Command) (reg : Registry),
      c ≠ .Ping → c ≠ .Disconnect →
      ((handle_command (collabFail msg) c reg).1).kind = .error) := by
  constructor
  · intro o c reg
    cases c <;> simp only [handle_command] <;> (try split) <;> (try split) <;>
      simp [Response.kind, successKind]
  · intro msg c reg hp hd
    cases c <;>
      first
      | exact absurd rfl hp
      | exact absurd rfl hd
      | (simp only [handle_command, collabFail]
         (try split) <;> simp [Response.kind])

/-- Witness for C2: a `Click` against a failing collaborator produces an
`Error` response. -/
theorem handle_command_shape_witness :
    ((handle_command (collabFail "boom") (.Click 1 0 0) reg1dev).1).kind =
      .error :=
  handle_command_shape.2 "boom" (.Click 1 0 0) reg1dev
    (by decide) (by decide)

/-- C3: a per-window command (`Click`, `Swipe`, `Screenshot`, `InputText`,
`KeyEvent`, `GetSize`, `Focus`) whose handle has no registry entry yields
exactly `Error("Device not connected")`, leaves the registry unchanged,
and performs no `Device` method invocation. -/
theorem unconnected_target_rejected (o : Collab) (c : Command)
    (reg : Registry) (h : Nat) (ht : targetHwnd c = some h)
    (hm : registryGet reg h = none) :
    handle_command o c reg = (.Error "Device not connected", reg, []) := by
  cases c <;> simp only [targetHwnd] at ht <;>
    first
    | exact Option.noConfusion ht
    | (injection ht with hh; subst hh; simp [handle_command, hm])

/-- Witness for C3: a `Click` on a never-connected handle against the
all-succeeding collaborator. -/
theorem unconnected_target_rejected_witness :
    handle_command collabOk (.Click 5 0 0) [] =
      (.Error "Device not connected", [], []) :=
  unconnected_target_rejected collabOk (.Click 5 0 0) [] 5 (by decide) (by decide)

/-- C5 counterexample: the claim that the critical section covers only the
map operation fails on the code.  For a `Click` on a connected handle the
dispatch trace is lock-acquire, map-get, device-call, lock-release: the
`Device` method runs strictly inside the mutex-guarded region, because the
guard binding lives to the end of the match arm in `handle_command`. -/
theorem device_call_outside_lock_cex :
    deviceCallsUnlocked (handleEvents collabOk (.Click 1 0 0) reg1dev) 0 =
      false := by
  decide

/-- C5 (amended): the registry mutex's critical section covers the map
operation and the `Device` method invocation together: in every dispatch,
every device call happens while the lock is held, so a long-running
`Device.screenshot()` on handle A does block registry access for any other
handle until it returns. -/
theorem device_calls_inside_lock (o : Collab) (c : Command) (reg : Registry) :
    deviceCallsLocked (handleEvents o c reg) 0 = true := by
  cases c <;> simp only [handleEvents] <;> (try split) <;> rfl

/-- C6: two successful connects resolving windows with the same handle
leave exactly one registry entry for that handle, and it holds the device
built from the later registration's identity. -/
theorem register_idempotent (o1 o2 : Collab) (c1 c2 : Command)
    (reg : Registry) (i1 i2 : WindowInfo)
    (h1 : connectedInfo o1 c1 = some i1) (h2 : connectedInfo o2 c2 = some i2)
    (_hh : i1.hwnd = i2.hwnd) (hnd : nodupKeys reg = true) :
    countKey (handle_command o2 c2 (handle_command o1 c1 reg).2.1).2.1 i2.hwnd
        = 1 ∧
    registryGet (handle_command o2 c2 (handle_command o1 c1 reg).2.1).2.1
        i2.hwnd = some (Device.new i2) := by
  rw [handle_command_connect_registry o1 c1 i1 reg h1,
      handle_command_connect_registry o2 c2 i2 _ h2]
  have hnd1 : nodupKeys (registryInsert reg i1.hwnd (Device.new i1)) = true :=
    nodupKeys_insert reg i1.hwnd (Device.new i1) hnd
  refine ⟨countKey_insert_of_nodup _ i2.hwnd (Device.new i2) hnd1, ?_⟩
  rw [registryGet_insert]
  simp

/-- Witness for C6: connecting to the same window twice, by title then by
handle, over the empty registry. -/
theorem register_idempotent_witness :
    countKey (handle_command collabOk (.ConnectByHwnd 1)
        (handle_command collabOk (.Connect "Notepad") []).2.1).2.1 1 = 1 ∧
    registryGet (handle_command collabOk (.ConnectByHwnd 1)
        (handle_command collabOk (.Connect "Notepad") []).2.1).2.1 1 =
      some (Device.new okWindow) :=
  register_idempotent collabOk collabOk (.Connect "Notepad")
    (.ConnectByHwnd 1) [] okWindow okWindow (by decide) (by decide)
    (by decide) (by decide)

/-! ## Session lemmas -/

theorem leU32_leBytes (n : Nat) (h : n < 2 ^ 32) : leU32 (leBytes n) = n := by
  simp only [leBytes, leU32]
  omega

/-- Reading past the header of a framed stream reaches the payload. -/
theorem frame_stream_drop8 (v : Nat) (p rest : List Nat) :
    (mkFrame v p ++ rest).drop 8 = p ++ rest := rfl

/-- The length field of a framed stream sits in bytes 4..8. -/
theorem frame_stream_lenfield (v : Nat) (p rest : List Nat) :
    ((mkFrame v p ++ rest).drop 4).take 4 = leBytes p.length := rfl

/-- One session iteration over a well-formed frame: the outcome does not
depend on the frame's version field, only on its payload (and on the
environment and the bytes that follow). -/
theorem sessionRun_frame (env : SessionEnv) (i : Nat) (reg : Registry)
    (v : Nat) (p rest : List Nat) (hp : p.length < 2 ^ 32) :
    sessionRun env i (mkFrame v p ++ rest) reg =
      match env.dec p with
      | none => (.decodeFailure, reg, [])
      | some c =>
        let out := handle_command (env.collab i) c reg
        if env.writeOk i then
          let next := sessionRun env (i + 1) rest out.2.1
          (next.1, next.2.1, mkFrame PROTOCOL_VERSION (env.enc out.1) :: next.2.2)
        else (.writeFailure, out.2.1, []) := by
  have hlen : (mkFrame v p ++ rest).length = 8 + p.length + rest.length := by
    simp [mkFrame, headerBytes, leBytes]
    omega
  rw [sessionRun]
  rw [dif_neg (by omega)]
  simp only [frame_stream_lenfield, frame_stream_drop8, leU32_leBytes p.length hp]
  rw [if_neg (by simp)]
  simp only [List.take_left, List.drop_left]

/-- Clean termination of the session on end-of-stream before a full
header: zero or partial header bytes both return `Ok(())`. -/
theorem sessionRun_header_eof (env : SessionEnv) (i : Nat) (reg : Registry)
    (s : List Nat) (h : s.length < 8) :
    sessionRun env i s reg = (.clean, reg, []) := by
  rw [sessionRun]
  rw [dif_pos h]

/-- A header whose claimed length exceeds the bytes that follow makes the
body `read_exact` fail and the session end as an error. -/
theorem sessionRun_short_body (env : SessionEnv) (i : Nat) (reg : Registry)
    (s : List Nat) (h8 : 8 ≤ s.length)
    (hshort : s.length - 8 < leU32 ((s.drop 4).take 4)) :
    sessionRun env i s reg = (.bodyShortRead, reg, []) := by
  rw [sessionRun]
  rw [dif_neg (by omega)]
  simp only [List.length_drop]
  rw [if_pos hshort]

/-- A full frame whose payload does not decode ends the session as a
decode error. -/
theorem sessionRun_decode_failure (env : SessionEnv) (i : Nat)
    (reg : Registry) (s : List Nat) (h8 : 8 ≤ s.length)
    (hbody : leU32 ((s.drop 4).take 4) ≤ s.length - 8)
    (hdec : env.dec ((s.drop 8).take (leU32 ((s.drop 4).take 4))) = none) :
    sessionRun env i s reg = (.decodeFailure, reg, []) := by
  rw [sessionRun]
  rw [dif_neg (by omega)]
  simp only [List.length_drop]
  rw [if_neg (by omega), hdec]

/-- A full decoded frame whose response write fails ends the session as a
write error, after the command has been dispatched. -/
theorem sessionRun_write_failure (env : SessionEnv) (i : Nat)
    (reg : Registry) (s : List Nat) (c : Command) (h8 : 8 ≤ s.length)
    (hbody : leU32 ((s.drop 4).take 4) ≤ s.length - 8)
    (hdec : env.dec ((s.drop 8).take (leU32 ((s.drop 4).take 4))) = some c)
    (hw : env.writeOk i = false) :
    sessionRun env i s reg =
      (.writeFailure, (handle_command (env.collab i) c reg).2.1, []) := by
  rw [sessionRun]
  rw [dif_neg (by omega)]
  simp only [List.length_drop]
  rw [if_neg (by omega), hdec]
  simp [hw]

/-- A full decoded frame whose response write succeeds continues the
session on the remaining bytes — whatever response `handle_command`
produced, including `Error` responses from collaborator failures — with
the response frame prepended to the output. -/
theorem sessionRun_continue (env : SessionEnv) (i : Nat) (reg : Registry)
    (s : List Nat) (c : Command) (h8 : 8 ≤ s.length)
    (hbody : leU32 ((s.drop 4).take 4) ≤ s.length - 8)
    (hdec : env.dec ((s.drop 8).take (leU32 ((s.drop 4).take 4))) = some c)
    (hw : env.writeOk i = true) :
    sessionRun env i s reg =
      ((sessionRun env (i + 1) ((s.drop 8).drop (leU32 ((s.drop 4).take 4)))
          (handle_command (env.collab i) c reg).2.1).1,
       (sessionRun env (i + 1) ((s.drop 8).drop (leU32 ((s.drop 4).take 4)))
          (handle_command (env.collab i) c reg).2.1).2.1,
       mkFrame PROTOCOL_VERSION
           (env.enc (handle_command (env.collab i) c reg).1) ::
         (sessionRun env (i + 1) ((s.drop 8).drop (leU32 ((s.drop 4).take 4)))
            (handle_command (env.collab i) c reg).2.1).2.2) := by
  rw [sessionRun]
  rw [dif_neg (by omega)]
  simp only [List.length_drop]
  rw [if_neg (by omega), hdec]
  simp [hw]

/-- A session environment whose payload decoder rejects everything. -/
def envNone : SessionEnv :=
  ⟨fun _ => none, fun _ => [], fun _ => collabOk, fun _ => true⟩

/-- A session environment that decodes every payload as `Ping` and encodes
every response as the single byte 42. -/
def envPing : SessionEnv :=
  ⟨fun _ => some .Ping, fun _ => [42], fun _ => collabOk, fun _ => true⟩

/-- Every frame the session writes starts with the current protocol
version, little-endian. -/
theorem sessionRun_frames_version (env : SessionEnv) (s : List Nat) (i : Nat)
    (reg : Registry) :
    ∀ f ∈ (sessionRun env i s reg).2.2, f.take 4 = leBytes PROTOCOL_VERSION := by
  have main : ∀ (n : Nat) (s : List Nat) (i : Nat) (reg : Registry),
      s.length ≤ n → ∀ f ∈ (sessionRun env i s reg).2.2,
        f.take 4 = leBytes PROTOCOL_VERSION := by
    intro n
    induction n with
    | zero =>
      intro s i reg hle f hf
      rw [sessionRun_header_eof env i reg s (by omega)] at hf
      simp at hf
    | succ n ih =>
      intro s i reg hle f hf
      by_cases h8 : s.length < 8
      · rw [sessionRun_header_eof env i reg s h8] at hf
        simp at hf
      · by_cases hb : s.length - 8 < leU32 ((s.drop 4).take 4)
        · rw [sessionRun_short_body env i reg s (by omega) hb] at hf
          simp at hf
        · cases hdec : env.dec ((s.drop 8).take (leU32 ((s.drop 4).take 4))) with
          | none =>
            rw [sessionRun_decode_failure env i reg s (by omega) (by omega) hdec] at hf
            simp at hf
          | some c =>
            cases hw : env.writeOk i with
            | false =>
              rw [sessionRun_write_failure env i reg s c (by omega) (by omega)
                    hdec hw] at hf
              simp at hf
            | true =>
              rw [sessionRun_continue env i reg s c (by omega) (by omega)
                    hdec hw] at hf
              simp only [List.mem_cons] at hf
              rcases hf with hf | hf
              · subst hf; rfl
              · refine ih ((s.drop 8).drop (leU32 ((s.drop 4).take 4))) (i + 1)
                  (handle_command (env.collab i) c reg).2.1 ?_ f hf
                simp only [List.length_drop]
                omega
  exact main s.length s i reg (le_refl _)

/-- Evaluation of one whole session of `envPing` on a single frame with
version byte 9: it answers one frame and ends cleanly. -/
theorem sessionRun_envPing_eval :
    sessionRun envPing 0 (mkFrame 9 [7] ++ []) [] =
      (.clean, [], [mkFrame PROTOCOL_VERSION [42]]) := by
  rw [sessionRun_frame envPing 0 [] 9 [7] [] (by decide)]
  show ((sessionRun envPing 1 [] []).1, (sessionRun envPing 1 [] []).2.1,
        mkFrame PROTOCOL_VERSION [42] :: (sessionRun envPing 1 [] []).2.2) = _
  rw [sessionRun_header_eof envPing 1 [] [] (by decide)]

/-- C7 counterexample: the session also terminates normally (`Ok(())`,
not an error) when the peer closes after a partial header — here three
bytes where eight were expected — because tokio's `read_exact` reports
`UnexpectedEof` for partial reads exactly as for zero-byte reads and
`handle_connection` maps any header-read `UnexpectedEof` to clean
disconnect.  This refutes "exactly when ... zero bytes". -/
theorem session_header_eof_clean_cex :
    sessionRun envNone 0 [1, 2, 3] [] = (.clean, [], []) ∧
    ([1, 2, 3] : List Nat).length ≠ 0 :=
  ⟨sessionRun_header_eof envNone 0 [] [1, 2, 3] (by decide), by decide⟩

/-- C7 (amended): the session terminates normally exactly when the header
read hits end-of-stream before all 8 header bytes arrive (zero or partial
header); a short body read ends the session as an error, a malformed
payload ends it as an error, a failed response write ends it as an error
(in each case writing nothing further — no retry); and a successfully
decoded and answered command continues the session on the remaining
bytes whatever the response was, so collaborator failures (which become
`Error` responses, claim C2) do not end the session. -/
theorem session_termination :
    (∀ (env : SessionEnv) (i : Nat) (reg : Registry) (s : List Nat),
      s.length < 8 → sessionRun env i s reg = (.clean, reg, [])) ∧
    (∀ (env : SessionEnv) (i : Nat) (reg : Registry) (s : List Nat),
      8 ≤ s.length → s.length - 8 < leU32 ((s.drop 4).take 4) →
      sessionRun env i s reg = (.bodyShortRead, reg, [])) ∧
    (∀ (env : SessionEnv) (i : Nat) (reg : Registry) (s : List Nat),
      8 ≤ s.length → leU32 ((s.drop 4).take 4) ≤ s.length - 8 →
      env.dec ((s.drop 8).take (leU32 ((s.drop 4).take 4))) = none →
      sessionRun env i s reg = (.decodeFailure, reg, [])) ∧
    (∀ (env : SessionEnv) (i : Nat) (reg : Registry) (s : List Nat)
        (c : Command),
      8 ≤ s.length → leU32 ((s.drop 4).take 4) ≤ s.length - 8 →
      env.dec ((s.drop 8).take (leU32 ((s.drop 4).take 4))) = some c →
      env.writeOk i = false →
      sessionRun env i s reg =
        (.writeFailure, (handle_command (env.collab i) c reg).2.1, [])) ∧
    (∀ (env : SessionEnv) (i : Nat) (reg : Registry) (s : List Nat)
        (c : Command),
      8 ≤ s.length → leU32 ((s.drop 4).take 4) ≤ s.length - 8 →
      env.dec ((s.drop 8).take (leU32 ((s.drop 4).take 4))) = some c →
      env.writeOk i = true →
      sessionRun env i s reg =
        ((sessionRun env (i + 1)
            ((s.drop 8).drop (leU32 ((s.drop 4).take 4)))
            (handle_command (env.collab i) c reg).2.1).1,
         (sessionRun env (i + 1)
            ((s.drop 8).drop (leU32 ((s.drop 4).take 4)))
            (handle_command (env.collab i) c reg).2.1).2.1,
         mkFrame PROTOCOL_VERSION
             (env.enc (handle_command (env.collab i) c reg).1) ::
           (sessionRun env (i + 1)
              ((s.drop 8).drop (leU32 ((s.drop 4).take 4)))
              (handle_command (env.collab i) c reg).2.1).2.2)) :=
  ⟨sessionRun_header_eof, sessionRun_short_body, sessionRun_decode_failure,
   sessionRun_write_failure, sessionRun_continue⟩

/-- Witness for C7: a zero-byte stream ends cleanly, and a header claiming
five body bytes with none following ends as a body-read error. -/
theorem session_termination_witness :
    sessionRun envNone 0 [] [] = (.clean, [], []) ∧
    sessionRun envNone 0 (headerBytes 1 5) [] = (.bodyShortRead, [], []) :=
  ⟨session_termination.1 envNone 0 [] [] (by decide),
   session_termination.2.1 envNone 0 [] (headerBytes 1 5) (by decide) (by decide)⟩

/-- C8 counterexample: no upper bound exists on the claimed length — for a
header claiming `length = 4294967295` with no body following, the server
allocates a buffer of exactly 4294967295 bytes (`bodyAllocSize`), so the
claim that the frame is rejected "rather than ... allocating unbounded
memory" fails on the code.  (The session does then fail rather than
succeed once the stream has ended, per the second conjunct.) -/
theorem length_bound_cex :
    bodyAllocSize (headerBytes 1 4294967295) = some 4294967295 ∧
    sessionRun envNone 0 (headerBytes 1 4294967295) [] =
      (.bodyShortRead, [], []) :=
  ⟨by decide,
   sessionRun_short_body envNone 0 [] (headerBytes 1 4294967295)
     (by decide) (by decide)⟩

/-- C8 (amended): the code enforces no upper bound on the claimed frame
length: for any header claiming a positive length `L < 2^32` with no body
following, the session allocates a body buffer of exactly `L` bytes and
then, because the stream has ended, the body `read_exact` fails and the
session terminates as an error (rather than succeeding); nothing caps
`L`. -/
theorem no_length_bound (v L : Nat) (hL : L < 2 ^ 32) (hpos : 0 < L)
    (env : SessionEnv) (i : Nat) (reg : Registry) :
    bodyAllocSize (headerBytes v L) = some L ∧
    sessionRun env i (headerBytes v L) reg = (.bodyShortRead, reg, []) := by
  have hfield : ((headerBytes v L).drop 4).take 4 = leBytes L := rfl
  have hlen : (headerBytes v L).length = 8 := rfl
  constructor
  · simp [bodyAllocSize, hlen, hfield, leU32_leBytes L hL]
  · refine sessionRun_short_body env i reg _ (by rw [hlen]) ?_
    rw [hlen, hfield, leU32_leBytes L hL]
    omega

/-- Witness for C8 at the scenario's concrete length. -/
theorem no_length_bound_witness :
    bodyAllocSize (headerBytes 1 4294967294) = some 4294967294 ∧
    sessionRun envPing 3 (headerBytes 1 4294967294) reg1dev =
      (.bodyShortRead, reg1dev, []) :=
  no_length_bound 1 4294967294 (by decide) (by decide) envPing 3 reg1dev

/-- C10: the server never inspects the header's version field — two
received frames that differ only in the 4-byte version value produce
identical behavior (same exit, same registry effect, same frames written)
— while every frame the core itself sends carries
version = 1 (`PROTOCOL_VERSION`) in its first four bytes. -/
theorem version_field_ignored :
    (∀ (env : SessionEnv) (i : Nat) (reg : Registry) (v1 v2 : Nat)
        (p rest : List Nat), p.length < 2 ^ 32 →
      sessionRun env i (mkFrame v1 p ++ rest) reg =
        sessionRun env i (mkFrame v2 p ++ rest) reg) ∧
    (∀ (env : SessionEnv) (i : Nat) (reg : Registry) (s : List Nat),
      ∀ f ∈ (sessionRun env i s reg).2.2,
        leU32 (f.take 4) = PROTOCOL_VERSION) := by
  constructor
  · intro env i reg v1 v2 p rest hp
    rw [sessionRun_frame env i reg v1 p rest hp,
        sessionRun_frame env i reg v2 p rest hp]
  · intro env i reg s f hf
    rw [sessionRun_frames_version env s i reg f hf]
    decide

/-- Witness for C10: a version-9 frame and a version-0 frame with the same
`Ping` payload get the same answer, and the answered frame carries
version 1. -/
theorem version_field_ignored_witness :
    sessionRun envPing 0 (mkFrame 9 [7] ++ []) [] =
      sessionRun envPing 0 (mkFrame 0 [7] ++ []) [] ∧
    leU32 ((mkFrame PROTOCOL_VERSION [42]).take 4) = PROTOCOL_VERSION :=
  ⟨version_field_ignored.1 envPing 0 [] 9 0 [7] [] (by decide),
   version_field_ignored.2 envPing 0 [] (mkFrame 9 [7] ++ [])
     (mkFrame PROTOCOL_VERSION [42])
     (by rw [sessionRun_envPing_eval]; exact List.mem_singleton.mpr rfl)⟩

/-- C4: starting from the empty registry at server start, after any
sequence of dispatched commands an entry for handle `h` exists iff some
`Connect`/`ConnectByHwnd` step in the sequence succeeded for `h`; no
command ever removes an entry (presence is monotone under any further
commands, from any starting registry); and a failed `Connect` or
`ConnectByHwnd` leaves the registry exactly as it was. -/
theorem registry_entries_iff_connect :
    (∀ (tr : List (Collab × Command)) (h : Nat),
      (registryGet (runCommands tr []) h).isSome = registersHandle tr h) ∧
    (∀ (tr : List (Collab × Command)) (reg : Registry) (h : Nat),
      (registryGet reg h).isSome = true →
      (registryGet (runCommands tr reg) h).isSome = true) ∧
    (∀ (o : Collab) (title e : String) (reg : Registry),
      o.find_window title = .error e →
      (handle_command o (.Connect title) reg).2.1 = reg) ∧
    (∀ (o : Collab) (hw : Nat) (e : String) (reg : Registry),
      o.get_window_by_hwnd hw = .error e →
      (handle_command o (.ConnectByHwnd hw) reg).2.1 = reg) := by
  refine ⟨?_, ?_, ?_, ?_⟩
  · intro tr h
    rw [runCommands_registry]
    simp [registryGet]
  · intro tr reg h hpre
    rw [runCommands_registry, hpre]
    simp
  · intro o title e reg hf
    simp [handle_command, hf]
  · intro o hw e reg hf
    simp [handle_command, hf]

/-- Witness for C4: presence of handle 1 survives a failing `Click`
dispatch, and a `Connect` whose enumerator lookup fails leaves the
registry untouched. -/
theorem registry_entries_iff_connect_witness :
    (registryGet (runCommands [(collabFail "x", .Click 9 0 0)] reg1dev)
        1).isSome = true ∧
    (handle_command (collabFail "x") (.Connect "T") reg1dev).2.1 = reg1dev :=
  ⟨registry_entries_iff_connect.2.1 [(collabFail "x", .Click 9 0 0)]
     reg1dev 1 (by decide),
   registry_entries_iff_connect.2.2.1 (collabFail "x") "T" "x" reg1dev rfl⟩

/-- C9: in every state reachable under any interleaving of `n` concurrent
callers of `send_command` on one client, at most one caller is inside the
mutex-guarded exchange (so a second request is never written before the
first response is fully read), at most one request-or-response is on the
wire, the responses are read back in exactly the order the requests were
written (the read log is a prefix of the write log), and every caller
that has its response got the response to its own command — FIFO
correlation for any `n ≥ 1`. -/
theorem correlator_serializes (n : Nat) (cmd : Fin n → Command)
    (serve : Command → Response) (s : CorrState n)
    (hreach : CorrReachable cmd serve s) :
    (∀ j1 j2 : Fin n, (s.pc j1).inCS = true → (s.pc j2).inCS = true →
      j1 = j2) ∧
    (s.reqQ.length + s.respQ.length ≤ 1) ∧
    (∃ t, s.log = s.reads ++ t) ∧
    (∀ (k : Fin n) (r : Response), s.pc k = .done r → r = serve (cmd k)) ∧
    (∀ (k : Fin n) (r : Response), s.pc k = .gotResp r → r = serve (cmd k)) := by
  obtain ⟨hdone, hgot, hlocked, hwritten, hlock⟩ :=
    corrInv_reachable cmd serve s hreach
  have hcs : ∀ j : Fin n, (s.pc j).inCS = true → s.lock = some j := by
    intro j hj
    cases hpc : s.pc j with
    | locked => exact hlocked j hpc
    | written => exact hwritten j hpc
    | gotResp r => exact (hgot j r hpc).1
    | start => rw [hpc] at hj; simp [TaskPc.inCS] at hj
    | done r => rw [hpc] at hj; simp [TaskPc.inCS] at hj
  refine ⟨?_, ?_, ?_, fun k r h => hdone k r h, fun k r h => (hgot k r h).2⟩
  · intro j1 j2 h1 h2
    have e2 := hcs j2 h2
    rw [hcs j1 h1] at e2
    injection e2
  · cases hl : s.lock with
    | none =>
      rw [hl] at hlock
      obtain ⟨hq, hr, _⟩ := hlock
      simp [hq, hr]
    | some k =>
      rw [hl] at hlock
      rcases hlock with ⟨_, hq, hr, _⟩ | ⟨_, _, ⟨hq, hr⟩ | ⟨hq, hr⟩⟩ |
        ⟨r, _, hq, hr, _⟩ <;> simp [hq, hr]
  · cases hl : s.lock with
    | none =>
      rw [hl] at hlock
      exact ⟨[], by simp [hlock.2.2]⟩
    | some k =>
      rw [hl] at hlock
      rcases hlock with ⟨_, _, _, hlg⟩ | ⟨_, hlg, _⟩ | ⟨r, _, _, _, hlg⟩
      · exact ⟨[], by simp [hlg]⟩
      · exact ⟨[k], hlg⟩
      · exact ⟨[], by simp [hlg]⟩

/-- Witness for C9 at the initial state of one caller sending `Ping`. -/
theorem correlator_serializes_witness :
    (∃ t, (corrInit 1).log = (corrInit 1).reads ++ t) ∧
    (corrInit 1).reqQ.length + (corrInit 1).respQ.length ≤ 1 :=
  ⟨(correlator_serializes 1 (fun _ => .Ping) (fun _ => .Pong) (corrInit 1)
      Relation.ReflTransGen.refl).2.2.1,
   (correlator_serializes 1 (fun _ => .Ping) (fun _ => .Pong) (corrInit 1)
      Relation.ReflTransGen.refl).2.1⟩

end PDB
